import Mathlib

/-!
Verification development for the `generic-json` crate: a backend-agnostic
JSON data model (trait `Json`, the six-variant `Value` / `ValueRef` /
`ValueMut` types, cross-backend comparison, numeric coercions, and the
serde_json backend).

Rust types are shallowly embedded: the generic `Value<T>` (whose payload
types are the backend's associated types) becomes `GValue N S A O`
parameterized by the four payload types; payload-level comparisons, which
in Rust come from `PartialEq`/`PartialOrd` bounds, become explicit
function parameters.
-/

namespace GenericJson

/-- Shallow embedding of `Value<T>` (src/value.rs): a closed six-variant sum
type. `N`, `S`, `A`, `O` stand for the backend's associated `Number`,
`String`, `Array` and `Object` payload types. -/
inductive GValue (N S A O : Type) : Type where
  | null : GValue N S A O
  | boolean : Bool → GValue N S A O
  | number : N → GValue N S A O
  | string : S → GValue N S A O
  | array : A → GValue N S A O
  | object : O → GValue N S A O

namespace GValue

variable {N S A O : Type}

/-- `Value::is_null` (src/value.rs). -/
def is_null : GValue N S A O → Bool
  | .null => true
  | _ => false

/-- `Value::is_bool` (src/value.rs). -/
def is_bool : GValue N S A O → Bool
  | .boolean _ => true
  | _ => false

/-- `Value::is_number` (src/value.rs). -/
def is_number : GValue N S A O → Bool
  | .number _ => true
  | _ => false

/-- `Value::is_string` (src/value.rs). -/
def is_string : GValue N S A O → Bool
  | .string _ => true
  | _ => false

/-- `Value::is_array` (src/value.rs). -/
def is_array : GValue N S A O → Bool
  | .array _ => true
  | _ => false

/-- `Value::is_object` (src/value.rs). -/
def is_object : GValue N S A O → Bool
  | .object _ => true
  | _ => false

/-- `Value::as_bool` (src/value.rs). -/
def as_bool : GValue N S A O → Option Bool
  | .boolean b => some b
  | _ => none

/-- `Value::as_number` (src/value.rs). -/
def as_number : GValue N S A O → Option N
  | .number n => some n
  | _ => none

/-- `Value::as_str` (src/value.rs): `s.as_ref()` derefs the backend string
payload to `str`; the deref is passed explicitly as `deref`. -/
def as_str (deref : S → String) : GValue N S A O → Option String
  | .string s => some (deref s)
  | _ => none

/-- `Value::as_array` (src/value.rs). -/
def as_array : GValue N S A O → Option A
  | .array a => some a
  | _ => none

/-- `Value::as_array_mut` (src/value.rs): same discrimination as
`as_array`, returning the mutable payload. -/
def as_array_mut : GValue N S A O → Option A
  | .array a => some a
  | _ => none

/-- `Value::as_object` (src/value.rs). -/
def as_object : GValue N S A O → Option O
  | .object o => some o
  | _ => none

/-- `Value::as_object_mut` (src/value.rs). -/
def as_object_mut : GValue N S A O → Option O
  | .object o => some o
  | _ => none

end GValue

/-- The discriminant (tag) of a value, numbered in the fixed order
Null < Boolean < Number < String < Array < Object used by ordering. -/
def tagIdx {N S A O : Type} : GValue N S A O → Nat
  | .null => 0
  | .boolean _ => 1
  | .number _ => 2
  | .string _ => 3
  | .array _ => 4
  | .object _ => 5

/-- Shallow embedding of `std::mem::swap` on two owned slots: returns the
two values with their places exchanged. -/
def memSwap {α : Type} (a b : α) : α × α := (b, a)

/-- `Value::take` (src/value.rs): `let mut value = Self::Null;
std::mem::swap(&mut value, self); value`. The returned pair is
(function result, final state of `self`). -/
def GValue.take {N S A O : Type} (self : GValue N S A O) :
    GValue N S A O × GValue N S A O :=
  let value : GValue N S A O := GValue.null
  let p := memSwap value self
  (p.1, p.2)

/-- `PartialEq<Value<U>> for Value<T>` (src/value.rs, lines 234-252):
cross-backend equality. The payload-level `PartialEq` bounds become the
explicit comparison functions `eqN`, `eqS`, `eqA`, `eqO`. -/
def geq {N S A O N2 S2 A2 O2 : Type}
    (eqN : N → N2 → Bool) (eqS : S → S2 → Bool)
    (eqA : A → A2 → Bool) (eqO : O → O2 → Bool) :
    GValue N S A O → GValue N2 S2 A2 O2 → Bool
  | .null, .null => true
  | .boolean a, .boolean b => a == b
  | .number a, .number b => eqN a b
  | .string a, .string b => eqS a b
  | .array a, .array b => eqA a b
  | .object a, .object b => eqO a b
  | _, _ => false

/-- `PartialOrd<Value<U>> for Value<T>` (src/value.rs, lines 309-341):
cross-backend ordering, match arms in source order. Payload-level
`partial_cmp` bounds become the functions `cN`, `cS`, `cA`, `cO`. -/
def gpcmp {N S A O N2 S2 A2 O2 : Type}
    (cN : N → N2 → Option Ordering) (cS : S → S2 → Option Ordering)
    (cA : A → A2 → Option Ordering) (cO : O → O2 → Option Ordering) :
    GValue N S A O → GValue N2 S2 A2 O2 → Option Ordering
  | .null, .null => some .eq
  | .null, _ => some .lt
  | .boolean _, .null => some .gt
  | .boolean a, .boolean b => some (compare a b)
  | .boolean _, _ => some .lt
  | .number _, .null | .number _, .boolean _ => some .gt
  | .number a, .number b => cN a b
  | .number _, _ => some .lt
  | .string _, .null | .string _, .boolean _ | .string _, .number _ =>
      some .gt
  | .string a, .string b => cS a b
  | .string _, _ => some .lt
  | .array _, .null | .array _, .boolean _ | .array _, .number _
  | .array _, .string _ => some .gt
  | .array a, .array b => cA a b
  | .array _, _ => some .lt
  | .object a, .object b => cO a b
  | .object _, _ => some .gt

/-- Shallow embedding of `ValueRef<'a, T>` (src/reference.rs): borrowed
view with the same six variants; references are erased to values. -/
inductive VRef (N S A O : Type) : Type where
  | null : VRef N S A O
  | boolean : Bool → VRef N S A O
  | number : N → VRef N S A O
  | string : S → VRef N S A O
  | array : A → VRef N S A O
  | object : O → VRef N S A O

namespace VRef

variable {N S A O : Type}

/-- `ValueRef::is_null` (src/reference.rs, common_impls). -/
def is_null : VRef N S A O → Bool
  | .null => true
  | _ => false

/-- `ValueRef::is_bool` (src/reference.rs, common_impls). -/
def is_bool : VRef N S A O → Bool
  | .boolean _ => true
  | _ => false

/-- `ValueRef::is_number` (src/reference.rs, common_impls). -/
def is_number : VRef N S A O → Bool
  | .number _ => true
  | _ => false

/-- `ValueRef::is_string` (src/reference.rs, common_impls). -/
def is_string : VRef N S A O → Bool
  | .string _ => true
  | _ => false

/-- `ValueRef::is_array` (src/reference.rs, common_impls). -/
def is_array : VRef N S A O → Bool
  | .array _ => true
  | _ => false

/-- `ValueRef::is_object` (src/reference.rs, common_impls). -/
def is_object : VRef N S A O → Bool
  | .object _ => true
  | _ => false

/-- `ValueRef::as_bool` (src/reference.rs). -/
def as_bool : VRef N S A O → Option Bool
  | .boolean b => some b
  | _ => none

/-- `ValueRef::as_number` (src/reference.rs). -/
def as_number : VRef N S A O → Option N
  | .number n => some n
  | _ => none

/-- `ValueRef::as_string` (src/reference.rs). -/
def as_string : VRef N S A O → Option S
  | .string s => some s
  | _ => none

/-- `ValueRef::as_str` (src/reference.rs). -/
def as_str (deref : S → String) : VRef N S A O → Option String
  | .string s => some (deref s)
  | _ => none

/-- `ValueRef::as_array` (src/reference.rs). -/
def as_array : VRef N S A O → Option A
  | .array a => some a
  | _ => none

/-- `ValueRef::as_object` (src/reference.rs). -/
def as_object : VRef N S A O → Option O
  | .object o => some o
  | _ => none

end VRef

/-- Shallow embedding of `ValueMut<'a, T>` (src/reference.rs): exclusive
borrowed view; references are erased to values. -/
inductive VMut (N S A O : Type) : Type where
  | null : VMut N S A O
  | boolean : Bool → VMut N S A O
  | number : N → VMut N S A O
  | string : S → VMut N S A O
  | array : A → VMut N S A O
  | object : O → VMut N S A O

namespace VMut

variable {N S A O : Type}

/-- `ValueMut::is_null` (src/reference.rs, common_impls). -/
def is_null : VMut N S A O → Bool
  | .null => true
  | _ => false

/-- `ValueMut::is_bool` (src/reference.rs, common_impls). -/
def is_bool : VMut N S A O → Bool
  | .boolean _ => true
  | _ => false

/-- `ValueMut::is_number` (src/reference.rs, common_impls). -/
def is_number : VMut N S A O → Bool
  | .number _ => true
  | _ => false

/-- `ValueMut::is_string` (src/reference.rs, common_impls). -/
def is_string : VMut N S A O → Bool
  | .string _ => true
  | _ => false

/-- `ValueMut::is_array` (src/reference.rs, common_impls). -/
def is_array : VMut N S A O → Bool
  | .array _ => true
  | _ => false

/-- `ValueMut::is_object` (src/reference.rs, common_impls). -/
def is_object : VMut N S A O → Bool
  | .object _ => true
  | _ => false

/-- `ValueMut::as_bool` (src/reference.rs). -/
def as_bool : VMut N S A O → Option Bool
  | .boolean b => some b
  | _ => none

/-- `ValueMut::as_number` (src/reference.rs). -/
def as_number : VMut N S A O → Option N
  | .number n => some n
  | _ => none

/-- `ValueMut::as_str` (src/reference.rs). -/
def as_str (deref : S → String) : VMut N S A O → Option String
  | .string s => some (deref s)
  | _ => none

/-- `ValueMut::as_array` (src/reference.rs). -/
def as_array : VMut N S A O → Option A
  | .array a => some a
  | _ => none

/-- `ValueMut::as_object` (src/reference.rs). -/
def as_object : VMut N S A O → Option O
  | .object o => some o
  | _ => none

/-- `ValueMut::as_array_mut` (src/reference.rs). -/
def as_array_mut : VMut N S A O → Option A
  | .array a => some a
  | _ => none

/-- `ValueMut::as_object_mut` (src/reference.rs). -/
def as_object_mut : VMut N S A O → Option O
  | .object o => some o
  | _ => none

end VMut

/-! Model of IEEE-754 binary floating point values as exact rationals.
Rust's primitive casts (`u64 as f64`, `i64 as f64`, `f64 as f32`, ...)
round to nearest, ties to even; the functions below implement that
rounding on `Nat`/`Int`/`ℚ`. Exponent overflow to infinity is not
modelled (no claim depends on it); all numbers involved are finite. -/

/-- Bit length of a natural number, fuel-bounded so that it reduces by
`decide` (fuel 70 covers every `u64`/`i64` magnitude). -/
def bitLenAux : Nat → Nat → Nat
  | 0, _ => 0
  | fuel + 1, n => if n = 0 then 0 else bitLenAux fuel (n / 2) + 1

/-- Bit length of a natural number up to 70 bits. -/
def bitLen (n : Nat) : Nat := bitLenAux 70 n

/-- Round `n / 2^s` to the nearest natural, ties to even. -/
def roundRNE (n s : Nat) : Nat :=
  if s = 0 then n
  else
    let q := n / 2 ^ s
    let r := n % 2 ^ s
    let h := 2 ^ (s - 1)
    if r < h then q
    else if h < r then q + 1
    else if q % 2 = 0 then q else q + 1

/-- The value of the `f64` nearest to the natural `n` (round to nearest,
ties to even): model of Rust's `n as f64` for `n : u64`. Naturals below
2^53 are exactly representable. -/
def natToF64 (n : Nat) : ℚ :=
  if n < 2 ^ 53 then (n : ℚ)
  else
    let k := bitLen n
    let s := k - 53
    ((roundRNE n s : Nat) : ℚ) * (2 : ℚ) ^ s

/-- Model of Rust's `i as f64` for `i : i64`. -/
def intToF64 (i : Int) : ℚ :=
  if 0 ≤ i then natToF64 i.toNat else -(natToF64 (-i).toNat)

/-- Round a rational to the nearest integer, ties to even. -/
def roundRatRNE (q : ℚ) : Int :=
  let f := ⌊q⌋
  let r := q - (f : ℚ)
  if r < 1 / 2 then f
  else if (1 : ℚ) / 2 < r then f + 1
  else if f % 2 = 0 then f else f + 1

/-- Floor of the base-2 logarithm of a positive rational. -/
def floorLog2 (q : ℚ) : Int :=
  let e : Int := (bitLen q.num.natAbs : Int) - (bitLen q.den : Int) - 1
  if (2 : ℚ) ^ (e + 1) ≤ q then e + 1 else e

/-- Round a nonzero rational to a `p`-bit binary significand (round to
nearest, ties to even), keeping the sign; exponent range not clamped. -/
def roundToPrec (p : Nat) (q : ℚ) : ℚ :=
  if q = 0 then 0
  else
    let sgn : ℚ := if q < 0 then -1 else 1
    let a := |q|
    let e := floorLog2 a
    let m := roundRatRNE (a * (2 : ℚ) ^ ((p : Int) - 1 - e))
    sgn * (m : ℚ) * (2 : ℚ) ^ (e - ((p : Int) - 1))

/-- Model of Rust's `f as f32` for a finite `f : f64` (24-bit significand
rounding). -/
def f64ToF32 (q : ℚ) : ℚ := roundToPrec 24 q

/-- Model of Rust's `n as f32` for `n : u64`. -/
def natToF32 (n : Nat) : ℚ := roundToPrec 24 (n : ℚ)

/-- Model of Rust's `i as f32` for `i : i64`. -/
def intToF32 (i : Int) : ℚ := roundToPrec 24 (i : ℚ)

/-! Model of `serde_json::Number` (the crate's serde_json backend,
src/impls/serde_json.rs, delegates to it). A serde_json number (without
the arbitrary-precision feature) stores either a `u64`, a negative `i64`,
or a finite `f64`; its own accessors are `as_u64` (present exactly for
the `u64` case), `as_i64` (present for the `u64`-fitting-`i64` and
negative cases) and `as_f64` (always present, casting integers with the
possibly-rounding `as f64` cast). -/

/-- The three storage forms of a `serde_json::Number`: `posInt n` models
`N::PosInt(n : u64)` (so `n < 2^64`), `negInt i` models
`N::NegInt(i : i64)` with `i < 0`, and `float q` models `N::Float` holding
a finite `f64` whose exact value is `q`. -/
inductive SNum : Type where
  | posInt : Nat → SNum
  | negInt : Int → SNum
  | float : ℚ → SNum

/-- `serde_json::Number::as_u64`. -/
def sjAsU64 : SNum → Option Nat
  | .posInt n => some n
  | _ => none

/-- `serde_json::Number::as_i64`. -/
def sjAsI64 : SNum → Option Int
  | .posInt n => if n ≤ 2 ^ 63 - 1 then some (n : Int) else none
  | .negInt i => some i
  | .float _ => none

/-- `serde_json::Number::as_f64`: always present, integers are converted
with the rounding `as f64` cast. -/
def sjAsF64 : SNum → Option ℚ
  | .posInt n => some (natToF64 n)
  | .negInt i => some (intToF64 i)
  | .float q => some q

/-- Rust's truncating cast `u as u32` for `u : u64`. -/
def u64ToU32 (n : Nat) : Nat := n % 2 ^ 32

/-- Rust's wrapping cast `i as i32` for `i : i64`. -/
def i64ToI32 (i : Int) : Int :=
  let m := i.emod (2 ^ 32)
  if m < 2 ^ 31 then m else m - 2 ^ 32

namespace SerdeNumber

/-- `impl Number for serde_json::Number`, `as_u32`
(src/impls/serde_json.rs): `self.as_u64().map(|u| u as u32)`. -/
def as_u32 (n : SNum) : Option Nat := (sjAsU64 n).map u64ToU32

/-- `impl Number for serde_json::Number`, `as_u64`. -/
def as_u64 (n : SNum) : Option Nat := sjAsU64 n

/-- `impl Number for serde_json::Number`, `as_i32`
(src/impls/serde_json.rs): `self.as_i64().map(|i| i as i32)`. -/
def as_i32 (n : SNum) : Option Int := (sjAsI64 n).map i64ToI32

/-- `impl Number for serde_json::Number`, `as_i64`. -/
def as_i64 (n : SNum) : Option Int := sjAsI64 n

/-- `impl Number for serde_json::Number`, `as_f32`
(src/impls/serde_json.rs): `self.as_f64().map(|f| f as f32)`. -/
def as_f32 (n : SNum) : Option ℚ := (sjAsF64 n).map f64ToF32

/-- `impl Number for serde_json::Number`, `as_f64`. -/
def as_f64 (n : SNum) : Option ℚ := sjAsF64 n

/-- `impl Number for serde_json::Number`, `as_f32_lossy`
(src/impls/serde_json.rs). The final branch calls
`self.as_i64().unwrap()`; a panic of that `unwrap` is modelled as `none`.
-/
def as_f32_lossy (n : SNum) : Option ℚ :=
  match sjAsF64 n with
  | some f => some (f64ToF32 f)
  | none =>
    match sjAsU64 n with
    | some u => some (natToF32 u)
    | none => (sjAsI64 n).map intToF32

/-- `impl Number for serde_json::Number`, `as_f64_lossy`
(src/impls/serde_json.rs). The final branch calls
`self.as_i64().unwrap()`; a panic of that `unwrap` is modelled as `none`.
-/
def as_f64_lossy (n : SNum) : Option ℚ :=
  match sjAsF64 n with
  | some f => some f
  | none =>
    match sjAsU64 n with
    | some u => some (natToF64 u)
    | none => (sjAsI64 n).map intToF64

end SerdeNumber

/-- `impl Number for Zero` (src/number.rs): the dummy number type that can
only represent `0.0`. Each field is the corresponding trait method. -/
structure ZeroNumberImpl where
  as_u32 : Option Nat
  as_u64 : Option Nat
  as_i32 : Option Int
  as_i64 : Option Int
  as_f32 : Option ℚ
  as_f32_lossy : ℚ
  as_f64 : Option ℚ
  as_f64_lossy : ℚ

/-- The `Zero` implementation of the `Number` trait (src/number.rs,
lines 34-66): all integer coercions return `None`, float coercions
return `0.0`. -/
def zeroNumber : ZeroNumberImpl where
  as_u32 := none
  as_u64 := none
  as_i32 := none
  as_i64 := none
  as_f32 := some 0
  as_f32_lossy := 0
  as_f64 := some 0
  as_f64_lossy := 0

/-! Model of the `serde_json::Value` backend (src/impls/serde_json.rs).
Associated types of its `Json` impl: `MetaData = ()`, `Number =
serde_json::Number` (`SNum`), `String = String`, `Array =
Vec<serde_json::Value>`, `Object = serde_json::Map<String, Value>`
(modelled as an association list preserving entry order). -/

/-- Model of `serde_json::Value`: the backend's own recursive value
representation. -/
inductive SJ : Type where
  | null : SJ
  | bool : Bool → SJ
  | num : SNum → SJ
  | str : String → SJ
  | arr : List SJ → SJ
  | obj : List (String × SJ) → SJ

/-- `Value<serde_json::Value>`: the generic `Value` instantiated at the
serde_json backend's payload types. -/
abbrev SJValue := GValue SNum String (List SJ) (List (String × SJ))

/-- `ValueRef<'_, serde_json::Value>` with references erased. -/
abbrev SJRef := VRef SNum String (List SJ) (List (String × SJ))

namespace SJ

/-- `Json::into_parts for serde_json::Value`
(src/impls/serde_json.rs, lines 90-101). `MetaData = ()`. -/
def into_parts : SJ → SJValue × Unit
  | .null => (GValue.null, ())
  | .bool b => (GValue.boolean b, ())
  | .num n => (GValue.number n, ())
  | .str s => (GValue.string s, ())
  | .arr a => (GValue.array a, ())
  | .obj o => (GValue.object o, ())

/-- `JsonNew::new for serde_json::Value`
(src/impls/serde_json.rs, lines 114-124). -/
def new (value : SJValue) (_meta : Unit) : SJ :=
  match value with
  | GValue.null => SJ.null
  | GValue.boolean b => SJ.bool b
  | GValue.number n => SJ.num n
  | GValue.string s => SJ.str s
  | GValue.array a => SJ.arr a
  | GValue.object o => SJ.obj o

/-- `Json::as_value_ref for serde_json::Value`
(src/impls/serde_json.rs, lines 66-75). -/
def as_value_ref : SJ → SJRef
  | .null => VRef.null
  | .bool b => VRef.boolean b
  | .num n => VRef.number n
  | .str s => VRef.string s
  | .arr a => VRef.array a
  | .obj o => VRef.object o

/-- Default trait method `Json::is_empty_array` (src/lib.rs, lines
247-253): matches `as_value_ref` against the Array variant. -/
def is_empty_array (v : SJ) : Bool :=
  match v.as_value_ref with
  | VRef.array a => a.isEmpty
  | _ => false

/-- Default trait method `Json::is_empty_object` (src/lib.rs, lines
255-262), transcribed exactly as written: the match arm checks the
`Array` variant. -/
def is_empty_object (v : SJ) : Bool :=
  match v.as_value_ref with
  | VRef.array a => a.isEmpty
  | _ => false

/-- Default trait method `Json::is_empty_array_or_object` (src/lib.rs,
lines 264-272). -/
def is_empty_array_or_object (v : SJ) : Bool :=
  match v.as_value_ref with
  | VRef.array a => a.isEmpty
  | VRef.object o => o.isEmpty
  | _ => false

end SJ

/-! Model of the reference backend `MetaValue<M>` and its key type
`Key<M>` (src/metavalue.rs). `SmallString` is modelled as `String`;
`json_number::NumberBuf` (external) is an opaque payload type `NB` with
an explicit equality function. -/

/-- `Key<M>` (src/metavalue.rs): object key bundling metadata with
small-buffer-optimized text. -/
structure GKey (M : Type) : Type where
  meta : M
  key : String

/-- `PartialEq for Key<M>` (src/metavalue.rs, lines 37-41):
`self.key == other.key`. -/
def keyEq {M : Type} (a b : GKey M) : Bool := a.key == b.key

/-- `Ord for Key<M>` (src/metavalue.rs, lines 51-55):
`self.key.cmp(&other.key)`. -/
def keyCmp {M : Type} (a b : GKey M) : Ordering := compare a.key b.key

/-- Modelled from the spec: the `Hash` impl for `Key<M>` is not under
src/ (the `Key` trait bound in src/lib.rs requires it); per the spec,
keys are "ordered and hashed solely by text", so the hash, for any hash
function `h` on text, is `h` applied to the key text only. -/
def keyHash {M : Type} (h : String → Nat) (k : GKey M) : Nat := h k.key

mutual

/-- A `MetaValue<M>` node (src/metavalue.rs): one metadata instance
paired with one `Value<Self>`. `NB` models `json_number::NumberBuf`. -/
inductive MNode (M NB : Type) : Type where
  | mk : M → MVal M NB → MNode M NB

/-- `Value<MetaValue<M>>`: the six-variant value whose array payload is
`Vec<MetaValue<M>>` and whose object payload is
`BTreeMap<Key<M>, MetaValue<M>>` (modelled as a key-sorted entry list).
-/
inductive MVal (M NB : Type) : Type where
  | null : MVal M NB
  | boolean : Bool → MVal M NB
  | number : NB → MVal M NB
  | string : String → MVal M NB
  | array : List (MNode M NB) → MVal M NB
  | object : List (GKey M × MNode M NB) → MVal M NB

end

mutual

/-- Modelled from the spec: logical equality between `MetaValue<M>` and
`MetaValue<M2>` trees (a `PartialEq` impl for `MetaValue` is not under
src/). Per the spec (§4.4 and "logical equality"), it compares the value
parts recursively and ignores the metadata of both nodes; one level of it
agrees with `PartialEq<Value<U>> for Value<T>` in src/value.rs. -/
def mnodeEq {M M2 NB : Type} (eqNB : NB → NB → Bool) :
    MNode M NB → MNode M2 NB → Bool
  | .mk _ v, .mk _ w => mvalEq eqNB v w

/-- Modelled from the spec: logical equality on the value part, variant
by variant, mirroring `PartialEq<Value<U>> for Value<T>` (src/value.rs)
with the payload equalities of the reference backend: numbers via `eqNB`,
strings by text, arrays element-wise, objects entry-wise with keys
compared by `Key`'s own `PartialEq` (text only). -/
def mvalEq {M M2 NB : Type} (eqNB : NB → NB → Bool) :
    MVal M NB → MVal M2 NB → Bool
  | .null, .null => true
  | .boolean a, .boolean b => a == b
  | .number a, .number b => eqNB a b
  | .string a, .string b => a == b
  | .array a, .array b => mnodeListEq eqNB a b
  | .object a, .object b => mentryListEq eqNB a b
  | _, _ => false

/-- Element-wise equality of array payloads (`Vec<MetaValue<M>>`). -/
def mnodeListEq {M M2 NB : Type} (eqNB : NB → NB → Bool) :
    List (MNode M NB) → List (MNode M2 NB) → Bool
  | [], [] => true
  | x :: xs, y :: ys => mnodeEq eqNB x y && mnodeListEq eqNB xs ys
  | _, _ => false

/-- Entry-wise equality of object payloads: keys by text (the `Key<M>`
`PartialEq` of src/metavalue.rs), values recursively. -/
def mentryListEq {M M2 NB : Type} (eqNB : NB → NB → Bool) :
    List (GKey M × MNode M NB) → List (GKey M2 × MNode M2 NB) → Bool
  | [], [] => true
  | (k, v) :: xs, (k2, w) :: ys =>
      (k.key == k2.key) && mnodeEq eqNB v w && mentryListEq eqNB xs ys
  | _, _ => false

end

mutual

/-- Rewrites every metadata annotation in a tree (node metadata and key
metadata) through `f`, leaving all structural content unchanged. -/
def relabelNode {M M2 NB : Type} (f : M → M2) : MNode M NB → MNode M2 NB
  | .mk m v => .mk (f m) (relabelVal f v)

/-- Metadata rewriting on the value part. -/
def relabelVal {M M2 NB : Type} (f : M → M2) : MVal M NB → MVal M2 NB
  | .null => .null
  | .boolean b => .boolean b
  | .number n => .number n
  | .string s => .string s
  | .array a => .array (relabelNodeList f a)
  | .object o => .object (relabelEntryList f o)

/-- Metadata rewriting on array payloads. -/
def relabelNodeList {M M2 NB : Type} (f : M → M2) :
    List (MNode M NB) → List (MNode M2 NB)
  | [] => []
  | x :: xs => relabelNode f x :: relabelNodeList f xs

/-- Metadata rewriting on object payloads (key metadata included). -/
def relabelEntryList {M M2 NB : Type} (f : M → M2) :
    List (GKey M × MNode M NB) → List (GKey M2 × MNode M2 NB)
  | [] => []
  | (k, v) :: xs => (⟨f k.meta, k.key⟩, relabelNode f v) :: relabelEntryList f xs

end

mutual

/-- Modelled from the spec: ordering between `MetaValue` trees (a
`PartialOrd` impl for `MetaValue` is not under src/). It compares the
value parts and ignores the metadata of both nodes. -/
def mnodeCmp {M M2 NB : Type} (cNB : NB → NB → Option Ordering) :
    MNode M NB → MNode M2 NB → Option Ordering
  | .mk _ v, .mk _ w => mvalCmp cNB v w

/-- Modelled from the spec: ordering on the value part, mirroring
`PartialOrd<Value<U>> for Value<T>` (src/value.rs) with the reference
backend's payload orders — booleans and strings by their own order,
numbers via `cNB`, arrays element-wise lexicographically, objects
entry-wise with keys compared by text first (the `Key<M>` `Ord` of
src/metavalue.rs). Grouped match arms of the source are expanded into
one arm per constructor pair. -/
def mvalCmp {M M2 NB : Type} (cNB : NB → NB → Option Ordering) :
    MVal M NB → MVal M2 NB → Option Ordering
  | .null, .null => some .eq
  | .null, .boolean _ => some .lt
  | .null, .number _ => some .lt
  | .null, .string _ => some .lt
  | .null, .array _ => some .lt
  | .null, .object _ => some .lt
  | .boolean _, .null => some .gt
  | .boolean a, .boolean b => some (compare a b)
  | .boolean _, .number _ => some .lt
  | .boolean _, .string _ => some .lt
  | .boolean _, .array _ => some .lt
  | .boolean _, .object _ => some .lt
  | .number _, .null => some .gt
  | .number _, .boolean _ => some .gt
  | .number a, .number b => cNB a b
  | .number _, .string _ => some .lt
  | .number _, .array _ => some .lt
  | .number _, .object _ => some .lt
  | .string _, .null => some .gt
  | .string _, .boolean _ => some .gt
  | .string _, .number _ => some .gt
  | .string a, .string b => some (compare a b)
  | .string _, .array _ => some .lt
  | .string _, .object _ => some .lt
  | .array _, .null => some .gt
  | .array _, .boolean _ => some .gt
  | .array _, .number _ => some .gt
  | .array _, .string _ => some .gt
  | .array a, .array b => mnodeListCmp cNB a b
  | .array _, .object _ => some .lt
  | .object _, .null => some .gt
  | .object _, .boolean _ => some .gt
  | .object _, .number _ => some .gt
  | .object _, .string _ => some .gt
  | .object _, .array _ => some .gt
  | .object a, .object b => mentryListCmp cNB a b

/-- Lexicographic element-wise ordering of array payloads
(`Vec<MetaValue<M>>` `PartialOrd`). -/
def mnodeListCmp {M M2 NB : Type} (cNB : NB → NB → Option Ordering) :
    List (MNode M NB) → List (MNode M2 NB) → Option Ordering
  | [], [] => some .eq
  | [], _ :: _ => some .lt
  | _ :: _, [] => some .gt
  | x :: xs, y :: ys =>
    match mnodeCmp cNB x y with
    | some .eq => mnodeListCmp cNB xs ys
    | r => r

/-- Lexicographic entry-wise ordering of object payloads: key text
first, then the value, then the remaining entries. -/
def mentryListCmp {M M2 NB : Type} (cNB : NB → NB → Option Ordering) :
    List (GKey M × MNode M NB) → List (GKey M2 × MNode M2 NB) → Option Ordering
  | [], [] => some .eq
  | [], _ :: _ => some .lt
  | _ :: _, [] => some .gt
  | (k, v) :: xs, (k2, w) :: ys =>
    match compare k.key k2.key with
    | .eq =>
      match mnodeCmp cNB v w with
      | some .eq => mentryListCmp cNB xs ys
      | r => r
    | o => some o

end

mutual

/-- Modelled from the spec: hashing of a `MetaValue` tree (a `Hash` impl
for `MetaValue` is not under src/), as the stream of payload hash tokens.
It mirrors `Hash for Value<T>` (src/value.rs, lines 290-307): `Null`
contributes nothing, each payload contributes through its own hash
(`hNB` for numbers, `hS` for strings and for key text, per the
text-only key hashing of the spec); metadata contributes nothing. -/
def mnodeHash {M NB : Type} (hNB : NB → Nat) (hS : String → Nat) :
    MNode M NB → List Nat
  | .mk _ v => mvalHash hNB hS v

/-- Hash token stream of the value part, variant by variant. -/
def mvalHash {M NB : Type} (hNB : NB → Nat) (hS : String → Nat) :
    MVal M NB → List Nat
  | .null => []
  | .boolean b => [if b then 1 else 0]
  | .number n => [hNB n]
  | .string s => [hS s]
  | .array a => mnodeListHash hNB hS a
  | .object o => mentryListHash hNB hS o

/-- Hash token stream of an array payload. -/
def mnodeListHash {M NB : Type} (hNB : NB → Nat) (hS : String → Nat) :
    List (MNode M NB) → List Nat
  | [] => []
  | x :: xs => mnodeHash hNB hS x ++ mnodeListHash hNB hS xs

/-- Hash token stream of an object payload: key text hash then value. -/
def mentryListHash {M NB : Type} (hNB : NB → Nat) (hS : String → Nat) :
    List (GKey M × MNode M NB) → List Nat
  | [] => []
  | (k, v) :: es => hS k.key :: (mnodeHash hNB hS v ++ mentryListHash hNB hS es)

end

/-- Trivial payload equality on `Unit`, used to instantiate comparator
arguments in witnesses. -/
def uEq : Unit → Unit → Bool := fun _ _ => true

/-- Trivial payload comparison on `Unit`, used to instantiate comparator
arguments in witnesses. -/
def uCmp : Unit → Unit → Option Ordering := fun _ _ => some Ordering.eq

/-! Theorems settling the claims. -/

/-- Claim C1: decomposing a serde_json backend value with `into_parts`
into a `(Value, MetaData)` pair and reconstructing it with `JsonNew::new`
yields a tree equal to the original (metadata is `()`, so logical
equality is structural equality). -/
theorem serde_into_parts_new_roundtrip (v : SJ) :
    SJ.new (SJ.into_parts v).1 (SJ.into_parts v).2 = v := by
  cases v <;> rfl

/-- Claim C4, code evaluation: `Json::is_empty_object` as written checks
the `Array` variant, so it returns `true` on an empty array and `false`
on every object, including the empty one — contradicting the intended
behavior (true exactly for an empty object, false for arrays). -/
theorem is_empty_object_checks_array_variant :
    SJ.is_empty_object (SJ.arr []) = true
    ∧ SJ.is_empty_object (SJ.obj []) = false
    ∧ SJ.is_empty_object (SJ.obj [("a", SJ.null)]) = false
    ∧ SJ.is_empty_object (SJ.arr [SJ.null]) = false :=
  ⟨rfl, rfl, rfl, rfl⟩

/-- Claim C5, code evaluation: the serde_json backend's `as_u32` is
`self.as_u64().map(|u| u as u32)`, a truncating cast, so the number
4294967296 (= 2^32, not representable in `u32`) reports `Some(0)`
instead of `None`; likewise `as_f64` delegates to serde_json's own
`as_f64`, which rounds large integers, so 2^53 + 1 reports
`Some(9007199254740992.0)`, not its exact value. Both contradict the
`Number` trait's documented exactness contract (src/number.rs). -/
theorem serde_as_u32_truncates :
    SerdeNumber.as_u32 (.posInt 4294967296) = some 0
    ∧ (4294967296 : Nat) ≠ 0
    ∧ SerdeNumber.as_f64 (.posInt 9007199254740993) = some ((9007199254740992 : ℚ))
    ∧ (9007199254740993 : ℚ) ≠ ((9007199254740992 : ℚ)) := by
  refine ⟨?_, by decide, ?_, by norm_num⟩
  · show Option.map u64ToU32 (some 4294967296) = some 0
    simp [u64ToU32]
  · show some (natToF64 9007199254740993) = some ((9007199254740992 : ℚ))
    rw [natToF64]
    norm_num
    rw [show bitLen 9007199254740993 = 54 from by decide]
    norm_num
    rw [show roundRNE 9007199254740993 1 = 4503599627370496 from by decide]
    norm_num

/-- Claim C6: serde_json backend numeric boundary cases — 2^53 reports
`as_f64` present with the exact value 9007199254740992.0; a stored
negative integer reports `as_u32` and `as_u64` absent; the fractional
value 1.5 reports every integer coercion absent and `as_f64 =
Some(1.5)`. -/
theorem serde_number_boundary_cases :
    SerdeNumber.as_f64 (.posInt 9007199254740992) = some ((9007199254740992 : ℚ))
    ∧ (∀ i : Int,
        SerdeNumber.as_u32 (.negInt i) = none
        ∧ SerdeNumber.as_u64 (.negInt i) = none)
    ∧ SerdeNumber.as_u32 (.float (3 / 2)) = none
    ∧ SerdeNumber.as_u64 (.float (3 / 2)) = none
    ∧ SerdeNumber.as_i32 (.float (3 / 2)) = none
    ∧ SerdeNumber.as_i64 (.float (3 / 2)) = none
    ∧ SerdeNumber.as_f64 (.float (3 / 2)) = some ((3 / 2 : ℚ)) := by
  refine ⟨?_, fun i => ⟨rfl, rfl⟩, rfl, rfl, rfl, rfl, rfl⟩
  show some (natToF64 9007199254740992) = some ((9007199254740992 : ℚ))
  rw [natToF64]
  norm_num
  rw [show bitLen 9007199254740992 = 54 from by decide]
  norm_num
  rw [show roundRNE 9007199254740992 1 = 4503599627370496 from by decide]
  norm_num

/-- Claim C9: the serde_json backend's lossy float coercions are total —
they return a value for every stored number and never reach the
panicking `unwrap` (modelled as `none`), because serde_json's `as_f64`
is present for every stored number. -/
theorem serde_lossy_coercions_total (n : SNum) :
    (SerdeNumber.as_f64_lossy n).isSome = true
    ∧ (SerdeNumber.as_f32_lossy n).isSome = true
    ∧ (sjAsF64 n).isSome = true := by
  cases n <;> exact ⟨rfl, rfl, rfl⟩

/-- Claim C10: `Value::take` returns the value previously held and
leaves `Null` in its place. -/
theorem value_take_spec {N S A O : Type} (v : GValue N S A O) :
    (GValue.take v).1 = v ∧ (GValue.take v).2 = GValue.null :=
  ⟨rfl, rfl⟩

/-- Claim C2: for two values over possibly different backends whose tags
differ, equality is `false`, `partial_cmp` is `some` of exactly the
comparison of the tag indices in the fixed order Null < Boolean < Number
< String < Array < Object, the result is invariant under any change of
the payload comparison functions (no payload is inspected), and `lt`
holds exactly when the left tag is smaller, `gt` exactly when the right
tag is smaller, so exactly one of the two holds. -/
theorem tag_order_cross_backend
    {N S A O N2 S2 A2 O2 : Type}
    (eqN : N → N2 → Bool) (eqS : S → S2 → Bool)
    (eqA : A → A2 → Bool) (eqO : O → O2 → Bool)
    (eqN2 : N → N2 → Bool) (eqS2 : S → S2 → Bool)
    (eqA2 : A → A2 → Bool) (eqO2 : O → O2 → Bool)
    (cN : N → N2 → Option Ordering) (cS : S → S2 → Option Ordering)
    (cA : A → A2 → Option Ordering) (cO : O → O2 → Option Ordering)
    (cN2 : N → N2 → Option Ordering) (cS2 : S → S2 → Option Ordering)
    (cA2 : A → A2 → Option Ordering) (cO2 : O → O2 → Option Ordering)
    (v : GValue N S A O) (w : GValue N2 S2 A2 O2)
    (h : tagIdx v ≠ tagIdx w) :
    geq eqN eqS eqA eqO v w = false
    ∧ gpcmp cN cS cA cO v w = some (compare (tagIdx v) (tagIdx w))
    ∧ geq eqN eqS eqA eqO v w = geq eqN2 eqS2 eqA2 eqO2 v w
    ∧ gpcmp cN cS cA cO v w = gpcmp cN2 cS2 cA2 cO2 v w
    ∧ (gpcmp cN cS cA cO v w = some Ordering.lt ↔ tagIdx v < tagIdx w)
    ∧ (gpcmp cN cS cA cO v w = some Ordering.gt ↔ tagIdx w < tagIdx v) := by
  have h1 : geq eqN eqS eqA eqO v w = false := by
    cases v <;> cases w <;> first | exact absurd rfl h | rfl
  have h2 : gpcmp cN cS cA cO v w = some (compare (tagIdx v) (tagIdx w)) := by
    cases v <;> cases w <;> first | exact absurd rfl h | rfl
  have h3 : geq eqN2 eqS2 eqA2 eqO2 v w = false := by
    cases v <;> cases w <;> first | exact absurd rfl h | rfl
  have h4 : gpcmp cN2 cS2 cA2 cO2 v w = some (compare (tagIdx v) (tagIdx w)) := by
    cases v <;> cases w <;> first | exact absurd rfl h | rfl
  refine ⟨h1, h2, h3.symm ▸ h1, h4 ▸ h2, ?_, ?_⟩
  · rw [h2]
    simp [Nat.compare_eq_lt]
  · rw [h2]
    simp [Nat.compare_eq_gt]

/-- Witness for claim C2 at the concrete pair Null vs Boolean(true). -/
theorem tag_order_cross_backend_witness :
    tagIdx (GValue.null : GValue Unit Unit Unit Unit)
        ≠ tagIdx (GValue.boolean true : GValue Unit Unit Unit Unit)
    ∧ geq uEq uEq uEq uEq (GValue.null : GValue Unit Unit Unit Unit)
        (GValue.boolean true) = false
    ∧ gpcmp uCmp uCmp uCmp uCmp (GValue.null : GValue Unit Unit Unit Unit)
        (GValue.boolean true)
      = some (compare (tagIdx (GValue.null : GValue Unit Unit Unit Unit))
          (tagIdx (GValue.boolean true : GValue Unit Unit Unit Unit))) := by
  have hne : tagIdx (GValue.null : GValue Unit Unit Unit Unit)
      ≠ tagIdx (GValue.boolean true : GValue Unit Unit Unit Unit) := by decide
  have main := tag_order_cross_backend uEq uEq uEq uEq uEq uEq uEq uEq
    uCmp uCmp uCmp uCmp uCmp uCmp uCmp uCmp GValue.null (GValue.boolean true) hne
  exact ⟨hne, main.1, main.2.1⟩

/-- Claim C3: for `Value`, `ValueRef` and `ValueMut`, each variant
classifier agrees with the corresponding extractor evaluated on the same
value: `is_X` is `true` exactly when `as_X` returns a payload (`Null`,
which has no extractor, is classified exactly when the value is the
`Null` variant). -/
theorem classification_extraction_duality {N S A O : Type} (deref : S → String) :
    (∀ v : GValue N S A O,
      (v.is_null = true ↔ v = GValue.null)
      ∧ v.is_bool = v.as_bool.isSome
      ∧ v.is_number = v.as_number.isSome
      ∧ v.is_string = (v.as_str deref).isSome
      ∧ v.is_array = v.as_array.isSome
      ∧ v.is_object = v.as_object.isSome
      ∧ v.is_array = v.as_array_mut.isSome
      ∧ v.is_object = v.as_object_mut.isSome)
    ∧ (∀ r : VRef N S A O,
      (r.is_null = true ↔ r = VRef.null)
      ∧ r.is_bool = r.as_bool.isSome
      ∧ r.is_number = r.as_number.isSome
      ∧ r.is_string = r.as_string.isSome
      ∧ r.is_string = (r.as_str deref).isSome
      ∧ r.is_array = r.as_array.isSome
      ∧ r.is_object = r.as_object.isSome)
    ∧ (∀ m : VMut N S A O,
      (m.is_null = true ↔ m = VMut.null)
      ∧ m.is_bool = m.as_bool.isSome
      ∧ m.is_number = m.as_number.isSome
      ∧ m.is_string = (m.as_str deref).isSome
      ∧ m.is_array = m.as_array.isSome
      ∧ m.is_object = m.as_object.isSome
      ∧ m.is_array = m.as_array_mut.isSome
      ∧ m.is_object = m.as_object_mut.isSome) := by
  refine ⟨fun v => ?_, fun r => ?_, fun m => ?_⟩
  · cases v <;>
      simp [GValue.is_null, GValue.is_bool, GValue.is_number, GValue.is_string,
        GValue.is_array, GValue.is_object, GValue.as_bool, GValue.as_number,
        GValue.as_str, GValue.as_array, GValue.as_object, GValue.as_array_mut,
        GValue.as_object_mut]
  · cases r <;>
      simp [VRef.is_null, VRef.is_bool, VRef.is_number, VRef.is_string,
        VRef.is_array, VRef.is_object, VRef.as_bool, VRef.as_number,
        VRef.as_string, VRef.as_str, VRef.as_array, VRef.as_object]
  · cases m <;>
      simp [VMut.is_null, VMut.is_bool, VMut.is_number, VMut.is_string,
        VMut.is_array, VMut.is_object, VMut.as_bool, VMut.as_number,
        VMut.as_str, VMut.as_array, VMut.as_object, VMut.as_array_mut,
        VMut.as_object_mut]

/-- Claim C7: cross-backend comparison between `Value<T>` and `Value<U>`
is mirrored — when the payload comparisons are themselves mirrored,
swapping the two sides preserves equality and swaps the ordering result
— and is reflexive on a value compared with itself when the payload
comparisons are reflexive. -/
theorem cross_backend_symmetry
    {N S A O N2 S2 A2 O2 : Type}
    (eqN : N → N2 → Bool) (eqS : S → S2 → Bool)
    (eqA : A → A2 → Bool) (eqO : O → O2 → Bool)
    (eqN2 : N2 → N → Bool) (eqS2 : S2 → S → Bool)
    (eqA2 : A2 → A → Bool) (eqO2 : O2 → O → Bool)
    (cN : N → N2 → Option Ordering) (cS : S → S2 → Option Ordering)
    (cA : A → A2 → Option Ordering) (cO : O → O2 → Option Ordering)
    (cN2 : N2 → N → Option Ordering) (cS2 : S2 → S → Option Ordering)
    (cA2 : A2 → A → Option Ordering) (cO2 : O2 → O → Option Ordering)
    (heN : ∀ a b, eqN2 b a = eqN a b) (heS : ∀ a b, eqS2 b a = eqS a b)
    (heA : ∀ a b, eqA2 b a = eqA a b) (heO : ∀ a b, eqO2 b a = eqO a b)
    (hcN : ∀ a b, cN2 b a = (cN a b).map Ordering.swap)
    (hcS : ∀ a b, cS2 b a = (cS a b).map Ordering.swap)
    (hcA : ∀ a b, cA2 b a = (cA a b).map Ordering.swap)
    (hcO : ∀ a b, cO2 b a = (cO a b).map Ordering.swap)
    (reN : N → N → Bool) (reS : S → S → Bool)
    (reA : A → A → Bool) (reO : O → O → Bool)
    (rcN : N → N → Option Ordering) (rcS : S → S → Option Ordering)
    (rcA : A → A → Option Ordering) (rcO : O → O → Option Ordering)
    (hreN : ∀ a, reN a a = true) (hreS : ∀ a, reS a a = true)
    (hreA : ∀ a, reA a a = true) (hreO : ∀ a, reO a a = true)
    (hrcN : ∀ a, rcN a a = some Ordering.eq) (hrcS : ∀ a, rcS a a = some Ordering.eq)
    (hrcA : ∀ a, rcA a a = some Ordering.eq) (hrcO : ∀ a, rcO a a = some Ordering.eq) :
    (∀ (v : GValue N S A O) (w : GValue N2 S2 A2 O2),
        geq eqN2 eqS2 eqA2 eqO2 w v = geq eqN eqS eqA eqO v w
      ∧ gpcmp cN2 cS2 cA2 cO2 w v = (gpcmp cN cS cA cO v w).map Ordering.swap)
    ∧ (∀ v : GValue N S A O,
        geq reN reS reA reO v v = true
      ∧ gpcmp rcN rcS rcA rcO v v = some Ordering.eq) := by
  constructor
  · intro v w
    cases v <;> cases w
    all_goals try (exact ⟨rfl, rfl⟩)
    all_goals try (rename_i a b; cases a <;> cases b <;> exact ⟨rfl, rfl⟩)
    all_goals simp [geq, gpcmp, heN, heS, heA, heO, hcN, hcS, hcA, hcO]
  · intro v
    cases v
    all_goals try (exact ⟨rfl, rfl⟩)
    all_goals try (rename_i a; cases a <;> exact ⟨rfl, rfl⟩)
    all_goals simp [geq, gpcmp, hreN, hreS, hreA, hreO, hrcN, hrcS, hrcA, hrcO]

/-- The trivial `Unit` payload equality is its own mirror image. -/
theorem uEq_mirror (a b : Unit) : uEq b a = uEq a b := rfl

/-- The trivial `Unit` payload comparison is its own mirror image. -/
theorem uCmp_mirror (a b : Unit) : uCmp b a = (uCmp a b).map Ordering.swap := rfl

/-- The trivial `Unit` payload equality is reflexive. -/
theorem uEq_refl (a : Unit) : uEq a a = true := rfl

/-- The trivial `Unit` payload comparison is reflexive. -/
theorem uCmp_refl (a : Unit) : uCmp a a = some Ordering.eq := rfl

/-- Witness for claim C7 at concrete values over the `Unit` payload
backend: the mirrored comparison of Boolean(true) against Null, and
reflexivity at Boolean(true). -/
theorem cross_backend_symmetry_witness :
    gpcmp uCmp uCmp uCmp uCmp (GValue.null : GValue Unit Unit Unit Unit)
        (GValue.boolean true : GValue Unit Unit Unit Unit)
      = (gpcmp uCmp uCmp uCmp uCmp (GValue.boolean true : GValue Unit Unit Unit Unit)
          GValue.null).map Ordering.swap
    ∧ geq uEq uEq uEq uEq (GValue.boolean true : GValue Unit Unit Unit Unit)
        (GValue.boolean true) = true := by
  have main := cross_backend_symmetry uEq uEq uEq uEq uEq uEq uEq uEq
    uCmp uCmp uCmp uCmp uCmp uCmp uCmp uCmp
    uEq_mirror uEq_mirror uEq_mirror uEq_mirror
    uCmp_mirror uCmp_mirror uCmp_mirror uCmp_mirror
    uEq uEq uEq uEq uCmp uCmp uCmp uCmp
    uEq_refl uEq_refl uEq_refl uEq_refl
    uCmp_refl uCmp_refl uCmp_refl uCmp_refl
  exact ⟨(main.1 (GValue.boolean true) GValue.null).2, (main.2 (GValue.boolean true)).1⟩

/-- Rewriting the metadata of two trees through arbitrary functions does
not change their logical equality. -/
theorem relabel_preserves_mnodeEq {M M2 M3 M4 NB : Type} (eqNB : NB → NB → Bool)
    (f : M → M3) (g : M2 → M4) :
    ∀ (t : MNode M NB) (u : MNode M2 NB),
      mnodeEq eqNB (relabelNode f t) (relabelNode g u) = mnodeEq eqNB t u := by
  refine mnodeEq.induct eqNB
    (fun t u => mnodeEq eqNB (relabelNode f t) (relabelNode g u) = mnodeEq eqNB t u)
    (fun v w => mvalEq eqNB (relabelVal f v) (relabelVal g w) = mvalEq eqNB v w)
    (fun es fs => mentryListEq eqNB (relabelEntryList f es) (relabelEntryList g fs)
      = mentryListEq eqNB es fs)
    (fun xs ys => mnodeListEq eqNB (relabelNodeList f xs) (relabelNodeList g ys)
      = mnodeListEq eqNB xs ys)
    ?_ ?_ ?_ ?_ ?_ ?_ ?_ ?_ ?_ ?_ ?_ ?_ ?_ ?_
  · intro m v m2 w ih
    exact ih
  · rfl
  · intro a b
    rfl
  · intro a b
    rfl
  · intro a b
    rfl
  · intro a b ih
    exact ih
  · intro a b ih
    exact ih
  · intro t x hnull hbool hnum hstr harr hobj
    cases t <;> cases x <;>
      first
        | rfl
        | exact (harr _ _ rfl rfl).elim
        | exact (hobj _ _ rfl rfl).elim
  · rfl
  · intro x xs y ys ih1 ih2
    simp [mnodeListEq, relabelNodeList, ih1, ih2]
  · intro t x hnil hcons
    cases t <;> cases x <;> first | rfl | exact (hcons _ _ _ _ rfl rfl).elim
  · rfl
  · intro k v xs k2 w ys ih1 ih2
    simp [mentryListEq, relabelEntryList, ih1, ih2]
  · intro t x hnil hcons
    cases t <;> cases x <;> first | rfl | exact (hcons _ _ _ _ _ _ rfl rfl).elim

/-- Rewriting the metadata of two trees through arbitrary functions does
not change their ordering. -/
theorem relabel_preserves_mnodeCmp {M M2 M3 M4 NB : Type}
    (cNB : NB → NB → Option Ordering) (f : M → M3) (g : M2 → M4) :
    ∀ (t : MNode M NB) (u : MNode M2 NB),
      mnodeCmp cNB (relabelNode f t) (relabelNode g u) = mnodeCmp cNB t u := by
  apply mnodeCmp.induct cNB
    (fun t u => mnodeCmp cNB (relabelNode f t) (relabelNode g u) = mnodeCmp cNB t u)
    (fun v w => mvalCmp cNB (relabelVal f v) (relabelVal g w) = mvalCmp cNB v w)
    (fun es fs => mentryListCmp cNB (relabelEntryList f es) (relabelEntryList g fs)
      = mentryListCmp cNB es fs)
    (fun xs ys => mnodeListCmp cNB (relabelNodeList f xs) (relabelNodeList g ys)
      = mnodeListCmp cNB xs ys)
  all_goals intros
  all_goals try (first | rfl | assumption)
  · rename_i x xs y ys hx ih2 ih1
    simp [mnodeListCmp, relabelNodeList, ih2, hx, ih1]
  · rename_i x xs y ys hne ih1
    simp only [relabelNodeList, mnodeListCmp, ih1]
  · rename_i k v xs k2 w ys hk hv ih2 ih1
    simp [mentryListCmp, relabelEntryList, hk, hv, ih2, ih1]
  · rename_i k v xs k2 w ys hk hvne ih1
    simp only [mentryListCmp, relabelEntryList, hk, ih1]
  · rename_i k v xs k2 w ys hkne
    simp only [mentryListCmp, relabelEntryList]

/-- Rewriting the metadata of a tree through an arbitrary function does
not change its hash token stream. -/
theorem relabel_preserves_mnodeHash {M M3 NB : Type}
    (hNB : NB → Nat) (hS : String → Nat) (f : M → M3) :
    ∀ t : MNode M NB, mnodeHash hNB hS (relabelNode f t) = mnodeHash hNB hS t := by
  apply relabelNode.induct f
    (fun t => mnodeHash hNB hS (relabelNode f t) = mnodeHash hNB hS t)
    (fun v => mvalHash hNB hS (relabelVal f v) = mvalHash hNB hS v)
    (fun es => mentryListHash hNB hS (relabelEntryList f es) = mentryListHash hNB hS es)
    (fun xs => mnodeListHash hNB hS (relabelNodeList f xs) = mnodeListHash hNB hS xs)
  all_goals intros
  all_goals try (first | rfl | assumption)
  all_goals simp_all [mnodeHash, mvalHash, mnodeListHash, mentryListHash,
    relabelNode, relabelVal, relabelNodeList, relabelEntryList]

/-- Claim C8: equality, ordering and hashing are invariant under any
change of metadata — `Key<M>` equality, ordering and hashing depend only
on the key text, and comparing or hashing two `MetaValue` trees after
rewriting every metadata annotation (node and key metadata alike)
through arbitrary functions gives the same result as before. -/
theorem metadata_irrelevance {M M2 M3 M4 MK NB : Type}
    (eqNB : NB → NB → Bool) (cNB : NB → NB → Option Ordering)
    (hNB : NB → Nat) (hS : String → Nat)
    (f : M → M3) (g : M2 → M4) :
    (∀ (m m2 m3 m4 : MK) (k k2 : String),
        keyEq ⟨m, k⟩ ⟨m2, k2⟩ = keyEq ⟨m3, k⟩ ⟨m4, k2⟩
      ∧ keyCmp ⟨m, k⟩ ⟨m2, k2⟩ = keyCmp ⟨m3, k⟩ ⟨m4, k2⟩
      ∧ keyHash hS ⟨m, k⟩ = keyHash hS ⟨m3, k⟩)
    ∧ (∀ (t : MNode M NB) (u : MNode M2 NB),
        mnodeEq eqNB (relabelNode f t) (relabelNode g u) = mnodeEq eqNB t u
      ∧ mnodeCmp cNB (relabelNode f t) (relabelNode g u) = mnodeCmp cNB t u)
    ∧ (∀ t : MNode M NB,
        mnodeHash hNB hS (relabelNode f t) = mnodeHash hNB hS t) :=
  ⟨fun _ _ _ _ _ _ => ⟨rfl, rfl, rfl⟩,
   fun t u =>
     ⟨relabel_preserves_mnodeEq eqNB f g t u,
      relabel_preserves_mnodeCmp cNB f g t u⟩,
   relabel_preserves_mnodeHash hNB hS f⟩

end GenericJson
